import Mathlib

/-!
Verification of the GenoView sequence-annotation repository.

This file gives a shallow embedding, in Lean 4, of the analysis modules of
the repository (`src/orf_finder.py`, `src/motif_detector.py`,
`src/domain_finder.py`, `src/analysis_pipeline.py`) and proves or refutes
the specification claims about them.  Sequences are `List Char`, machine
dictionaries are association lists or update functions, Python exceptions
are `Except` values, and the blocking network world of the domain finder
is an explicit environment record together with a discrete clock.
-/

namespace GenoView

/-! ## Biopython primitives used by the repository

`Seq.reverse_complement` complements every base by the IUPAC table
(lower case is preserved, characters without a complement are left
unchanged) and reverses the result. -/

/-- IUPAC complement table used by `Bio.Seq` (upper and lower case);
characters outside the table are left unchanged. -/
def complementBase (c : Char) : Char :=
  match c with
  | 'A' => 'T' | 'C' => 'G' | 'G' => 'C' | 'T' => 'A' | 'U' => 'A'
  | 'R' => 'Y' | 'Y' => 'R' | 'S' => 'S' | 'W' => 'W' | 'K' => 'M'
  | 'M' => 'K' | 'B' => 'V' | 'V' => 'B' | 'D' => 'H' | 'H' => 'D'
  | 'N' => 'N'
  | 'a' => 't' | 'c' => 'g' | 'g' => 'c' | 't' => 'a' | 'u' => 'a'
  | 'r' => 'y' | 'y' => 'r' | 's' => 's' | 'w' => 'w' | 'k' => 'm'
  | 'm' => 'k' | 'b' => 'v' | 'v' => 'b' | 'd' => 'h' | 'h' => 'd'
  | 'n' => 'n'
  | other => other

/-- Model of `Bio.Seq.reverse_complement`: complement every base, then reverse. -/
def reverseComplement (s : List Char) : List Char :=
  (s.map complementBase).reverse

/-- Standard genetic code (NCBI translation table 1) on DNA codons.
Codons that are not an exact `A`/`C`/`G`/`T` triplet are unresolvable
(`none`), which `Bio.Seq.translate` signals with a `TranslationError`. -/
def standardCode (codon : List Char) : Option Char :=
  match codon with
  | ['T','T','T'] => some 'F' | ['T','T','C'] => some 'F'
  | ['T','T','A'] => some 'L' | ['T','T','G'] => some 'L'
  | ['C','T','T'] => some 'L' | ['C','T','C'] => some 'L'
  | ['C','T','A'] => some 'L' | ['C','T','G'] => some 'L'
  | ['A','T','T'] => some 'I' | ['A','T','C'] => some 'I'
  | ['A','T','A'] => some 'I' | ['A','T','G'] => some 'M'
  | ['G','T','T'] => some 'V' | ['G','T','C'] => some 'V'
  | ['G','T','A'] => some 'V' | ['G','T','G'] => some 'V'
  | ['T','C','T'] => some 'S' | ['T','C','C'] => some 'S'
  | ['T','C','A'] => some 'S' | ['T','C','G'] => some 'S'
  | ['C','C','T'] => some 'P' | ['C','C','C'] => some 'P'
  | ['C','C','A'] => some 'P' | ['C','C','G'] => some 'P'
  | ['A','C','T'] => some 'T' | ['A','C','C'] => some 'T'
  | ['A','C','A'] => some 'T' | ['A','C','G'] => some 'T'
  | ['G','C','T'] => some 'A' | ['G','C','C'] => some 'A'
  | ['G','C','A'] => some 'A' | ['G','C','G'] => some 'A'
  | ['T','A','T'] => some 'Y' | ['T','A','C'] => some 'Y'
  | ['T','A','A'] => some '*' | ['T','A','G'] => some '*'
  | ['C','A','T'] => some 'H' | ['C','A','C'] => some 'H'
  | ['C','A','A'] => some 'Q' | ['C','A','G'] => some 'Q'
  | ['A','A','T'] => some 'N' | ['A','A','C'] => some 'N'
  | ['A','A','A'] => some 'K' | ['A','A','G'] => some 'K'
  | ['G','A','T'] => some 'D' | ['G','A','C'] => some 'D'
  | ['G','A','A'] => some 'E' | ['G','A','G'] => some 'E'
  | ['T','G','T'] => some 'C' | ['T','G','C'] => some 'C'
  | ['T','G','A'] => some '*' | ['T','G','G'] => some 'W'
  | ['C','G','T'] => some 'R' | ['C','G','C'] => some 'R'
  | ['C','G','A'] => some 'R' | ['C','G','G'] => some 'R'
  | ['A','G','T'] => some 'S' | ['A','G','C'] => some 'S'
  | ['A','G','A'] => some 'R' | ['A','G','G'] => some 'R'
  | ['G','G','T'] => some 'G' | ['G','G','C'] => some 'G'
  | ['G','G','A'] => some 'G' | ['G','G','G'] => some 'G'
  | _ => none

/-- A genetic-code table registry, modelling `CodonTable` lookups and the
per-table behaviour of `Bio.Seq.translate`: `registry t = none` means the
table id `t` is absent (lookup raises), `registry t = some code` gives
that table's codon translation, `code codon = none` being a
`TranslationError` for that codon. -/
abbrev Registry : Type := Nat → Option (List Char → Option Char)

/-- The registry containing only the standard table 1.  The claims below
exercise only table 1 and unknown table ids, so only the standard
genetic code is embedded; every other id is treated as absent. -/
def stdRegistry : Registry :=
  fun t => if t = 1 then some standardCode else none

/-- The Python exceptions distinguishable by the ORF finder's handlers:
`Bio.Seq.translate` raises a `ValueError` for an unknown table id (not
caught by the `except CodonTable.TranslationError` handler). -/
inductive PyErr : Type
  | valueError : PyErr
deriving DecidableEq

instance {ε α : Type} [DecidableEq ε] [DecidableEq α] : DecidableEq (Except ε α) :=
  fun a b =>
    match a, b with
    | .error e, .error f =>
      if h : e = f then .isTrue (by rw [h]) else .isFalse (by intro c; cases c; exact h rfl)
    | .error _, .ok _ => .isFalse (by intro c; cases c)
    | .ok _, .error _ => .isFalse (by intro c; cases c)
    | .ok x, .ok y =>
      if h : x = y then .isTrue (by rw [h]) else .isFalse (by intro c; cases c; exact h rfl)

/-- Sequential effectful map over a list: the Python `for` loop in which
an uncaught exception at any element aborts the whole computation. -/
def mapME {ε α β : Type} (f : α → Except ε β) : List α → Except ε (List β)
  | [] => .ok []
  | a :: rest => do
    let b ← f a
    let bs ← mapME f rest
    return b :: bs

/-! ## `src/orf_finder.py` — `find_orfs_biopython` -/

/-- One emitted ORF dictionary
(`start`/`end`/`strand`/`length_bp`/`protein_sequence`). -/
structure ORFRecord : Type where
  start : Nat
  end_ : Nat
  strand : Char
  length_bp : Nat
  protein_sequence : List Char
deriving DecidableEq, Repr

/-- The codon loop `for i in range(0, frame_len - (frame_len % 3), 3)`:
the successive complete codons of a frame (incomplete tail dropped). -/
def frameCodons : List Char → List (List Char)
  | a :: b :: c :: rest => [a, b, c] :: frameCodons rest
  | _ => []

/-- The per-codon translation step of the source:

    try: amino_acid = codon.translate(table=table, stop_symbol="*")
    except CodonTable.TranslationError: protein_seq += "?"

An unknown table id makes `translate` raise a `ValueError`, which the
handler does not catch; a codon the table cannot resolve raises a
`TranslationError`, caught and turned into `'?'`. -/
def codonAA (registry : Registry) (table : Nat) (codon : List Char) :
    Except PyErr Char :=
  match registry table with
  | none => .error .valueError
  | some code =>
    match code codon with
    | some aa => .ok aa
    | none => .ok '?'

/-- The two-state `M`/`*` scan over a translated frame
(`current_orf_start_prot_idx`): emits the `(start index, stop index)`
pair of every candidate ORF closed by a stop codon. -/
def scanAux : Nat → Option Nat → List Char → List (Nat × Nat)
  | _, _, [] => []
  | i, none, aa :: rest =>
    if aa = 'M' then scanAux (i + 1) (some i) rest
    else scanAux (i + 1) none rest
  | i, some s, aa :: rest =>
    if aa = '*' then (s, i) :: scanAux (i + 1) none rest
    else scanAux (i + 1) (some s) rest

/-- Emission of the ORF records of one frame from its translated protein
string: the length filter, the `dna_indices` mapping
(`dna_indices[k] = frame + 3*k`), and the strand coordinate remap. -/
def orfsFromProtein (strand_value : Int) (seq_len frame min_protein_length : Nat)
    (protein_seq : List Char) : List ORFRecord :=
  (scanAux 0 none protein_seq).filterMap (fun se =>
    if min_protein_length ≤ se.2 - se.1 then
      let dna_orf_start_on_strand := frame + 3 * se.1 + 1
      let dna_orf_end_on_strand := frame + 3 * se.2 + 3
      let orf_protein := (protein_seq.drop se.1).take (se.2 - se.1)
      let orf_dna_len := dna_orf_end_on_strand - dna_orf_start_on_strand + 1
      some { start := if strand_value = -1 then seq_len - dna_orf_end_on_strand + 1
                      else dna_orf_start_on_strand
             end_ := if strand_value = -1 then seq_len - dna_orf_start_on_strand + 1
                     else dna_orf_end_on_strand
             strand := if strand_value = 1 then '+' else '-'
             length_bp := orf_dna_len
             protein_sequence := orf_protein }
    else none)

/-- One strand/frame scan of `find_orfs_biopython`: slice the frame,
translate codon by codon (an unknown table id propagates the
`ValueError`), then scan the protein string. -/
def frameOrfs (registry : Registry) (table : Nat) (strand_value : Int)
    (seq_len : Nat) (nuc_seq : List Char) (frame min_protein_length : Nat) :
    Except PyErr (List ORFRecord) :=
  let frame_seq := nuc_seq.drop frame
  if frame_seq.length < 3 then .ok []
  else
    match mapME (codonAA registry table) (frameCodons frame_seq) with
    | .error e => .error e
    | .ok protein_seq =>
      .ok (orfsFromProtein strand_value seq_len frame min_protein_length protein_seq)

/-- Stable insertion by a numeric key (later records go after earlier
ones with an equal key). -/
def insertByKey {α : Type} (key : α → Nat) (r : α) : List α → List α
  | [] => [r]
  | x :: xs => if key r < key x then r :: x :: xs else x :: insertByKey key r xs

/-- The source's `results.sort` keyed on `start`: Python's stable sort by a
single key (stable sorts by one key agree, so insertion sort is an exact
model of Timsort's result). -/
def sortByKey {α : Type} (key : α → Nat) : List α → List α
  | [] => []
  | x :: xs => insertByKey key x (sortByKey key xs)

/-- Model of `find_orfs_biopython(sequence_record, min_protein_length, table)` of
`src/orf_finder.py`.  The short-sequence guard comes first; then the
`CodonTable.ambiguous_dna_by_id` lookup with its table-1 fallback (the
looked-up `codon_table` variable is never used afterwards — only total
absence of both ids returns early); then the six strand/frame scans and
the final stable sort by `start`. -/
def find_orfs_biopython (registry : Registry) (seq : List Char)
    (min_protein_length : Nat) (table : Nat) :
    Except PyErr (List ORFRecord) :=
  let seq_len := seq.length
  if seq_len < min_protein_length * 3 + 3 then .ok []
  else if (registry table).isNone && (registry 1).isNone then .ok []
  else
    match mapME (fun t =>
        frameOrfs registry table t.1 seq_len t.2.1 t.2.2 min_protein_length)
      ([((1 : Int), seq), (-1, reverseComplement seq)].flatMap
        (fun sp => [0, 1, 2].map (fun frame => (sp.1, sp.2, frame)))) with
    | .error e => .error e
    | .ok results => .ok (sortByKey ORFRecord.start results.flatten)

/-- The 47-nt test sequence of the repository
(`orf_finder.py` `__main__`, test case 1, and §8 of the spec). -/
def testDnaFwd : List Char :=
  "GGGAAACCCTTTATGAAAAAAAAAAAAAAAGGGCCCTTTTAGGGCCC".data

/-! ### Supporting lemmas for the ORF finder -/

/-- Every pair emitted by the protein scan is an ordered pair of indices
into the scanned string (given that a pending start index never exceeds
the scan position). -/
theorem scanAux_pairs (l : List Char) : ∀ (i : Nat) (st : Option Nat),
    (∀ s, st = some s → s ≤ i) →
    ∀ se ∈ scanAux i st l, se.1 ≤ se.2 ∧ se.2 < i + l.length := by
  induction l with
  | nil => intro i st _ se hse; simp [scanAux] at hse
  | cons aa rest ih =>
    intro i st hst se hse
    cases st with
    | none =>
      simp only [scanAux] at hse
      by_cases hM : aa = 'M'
      · rw [if_pos hM] at hse
        have := ih (i + 1) (some i) (by intro s hs; cases hs; omega) se hse
        simp only [List.length_cons]; omega
      · rw [if_neg hM] at hse
        have := ih (i + 1) none (by intro s hs; cases hs) se hse
        simp only [List.length_cons]; omega
    | some s =>
      simp only [scanAux] at hse
      have hsi : s ≤ i := hst s rfl
      by_cases hS : aa = '*'
      · rw [if_pos hS] at hse
        rcases List.mem_cons.mp hse with hse | hse
        · subst hse; simp only [List.length_cons]; omega
        · have := ih (i + 1) none (by intro u hu; cases hu) se hse
          simp only [List.length_cons]; omega
      · rw [if_neg hS] at hse
        have := ih (i + 1) (some s) (by intro u hu; cases hu; omega) se hse
        simp only [List.length_cons]; omega

/-- The codon loop produces `⌊frame length / 3⌋` codons. -/
theorem frameCodons_length : ∀ l : List Char, (frameCodons l).length = l.length / 3
  | [] => by simp [frameCodons]
  | [a] => by simp [frameCodons]
  | [a, b] => by simp [frameCodons]
  | a :: b :: c :: rest => by
    simp only [frameCodons, List.length_cons, frameCodons_length rest]
    omega

/-- A successful `mapME` preserves the list length. -/
theorem mapME_ok_length {ε α β : Type} {f : α → Except ε β} :
    ∀ {l : List α} {l' : List β}, mapME f l = .ok l' → l'.length = l.length := by
  intro l
  induction l with
  | nil =>
    intro l' h
    simp only [mapME, Except.ok.injEq] at h
    subst h; rfl
  | cons a rest ih =>
    intro l' h
    simp only [mapME, bind, Except.bind] at h
    cases hfa : f a with
    | error e => rw [hfa] at h; cases h
    | ok b =>
      rw [hfa] at h
      cases hrest : mapME f rest with
      | error e => rw [hrest] at h; cases h
      | ok bs =>
        rw [hrest] at h
        simp only [pure, Except.pure, Except.ok.injEq] at h
        subst h
        simp [ih hrest]

/-- Every element of a successful `mapME` output is the successful image
of an element of the input list. -/
theorem mapME_ok_mem {ε α β : Type} {f : α → Except ε β} :
    ∀ {l : List α} {l' : List β}, mapME f l = .ok l' →
    ∀ b ∈ l', ∃ a ∈ l, f a = .ok b := by
  intro l
  induction l with
  | nil =>
    intro l' h b hb
    simp only [mapME, Except.ok.injEq] at h
    subst h; simp at hb
  | cons a rest ih =>
    intro l' h b hb
    simp only [mapME, bind, Except.bind] at h
    cases hfa : f a with
    | error e => rw [hfa] at h; cases h
    | ok c =>
      rw [hfa] at h
      cases hrest : mapME f rest with
      | error e => rw [hrest] at h; cases h
      | ok cs =>
        rw [hrest] at h
        simp only [pure, Except.pure, Except.ok.injEq] at h
        subst h
        rcases List.mem_cons.mp hb with hb | hb
        · exact ⟨a, List.mem_cons_self a rest, by rw [hfa, hb]⟩
        · obtain ⟨a', ha', hfa'⟩ := ih hrest b hb
          exact ⟨a', List.mem_cons_of_mem a ha', hfa'⟩

/-- Membership is preserved by the stable insertion. -/
theorem mem_insertByKey {α : Type} {key : α → Nat} {r x : α} {l : List α} :
    x ∈ insertByKey key r l ↔ x = r ∨ x ∈ l := by
  induction l with
  | nil => simp [insertByKey]
  | cons y ys ih =>
    simp only [insertByKey]
    by_cases h : key r < key y
    · simp [h, List.mem_cons]
    · simp only [if_neg h, List.mem_cons, ih]
      tauto

/-- Membership is preserved by the stable sort. -/
theorem mem_sortByKey {α : Type} {key : α → Nat} {x : α} : ∀ {l : List α},
    x ∈ sortByKey key l ↔ x ∈ l := by
  intro l
  induction l with
  | nil => simp [sortByKey]
  | cons y ys ih => simp [sortByKey, mem_insertByKey, ih]

/-- Every record emitted from one translated frame satisfies the
coordinate and length invariants, provided the frame's codons fit inside
the sequence. -/
theorem orfsFromProtein_invariant (sv : Int) (seq_len frame minLen : Nat)
    (prot : List Char) (hlen : frame + 3 * prot.length ≤ seq_len) :
    ∀ r ∈ orfsFromProtein sv seq_len frame minLen prot,
      1 ≤ r.start ∧ r.start ≤ r.end_ ∧ r.end_ ≤ seq_len ∧
        r.length_bp = 3 * (r.protein_sequence.length + 1) := by
  intro r hr
  simp only [orfsFromProtein, List.mem_filterMap] at hr
  obtain ⟨se, hse, hemit⟩ := hr
  have hpair := scanAux_pairs prot 0 none (by intro s hs; cases hs) se hse
  by_cases hmin : minLen ≤ se.2 - se.1
  · rw [if_pos hmin] at hemit
    simp only [Option.some.injEq] at hemit
    subst hemit
    have hslice : ((prot.drop se.1).take (se.2 - se.1)).length = se.2 - se.1 := by
      simp only [List.length_take, List.length_drop]
      omega
    simp only [hslice]
    by_cases hrev : sv = -1
    · simp only [if_pos hrev]
      refine ⟨by omega, by omega, by omega, by omega⟩
    · simp only [if_neg hrev]
      refine ⟨by omega, by omega, by omega, by omega⟩
  · rw [if_neg hmin] at hemit
    cases hemit

/-- The length of a reverse complement equals the original length. -/
theorem reverseComplement_length (s : List Char) :
    (reverseComplement s).length = s.length := by
  simp [reverseComplement]

/-! ### Claim C2 — coordinate and length invariant of every emitted ORF -/

/-- C2: for every input sequence, every minimum protein length, and every
codon-table registry and table id, every ORF record in a successful
result of `find_orfs_biopython` satisfies
`1 ≤ start ≤ end ≤ sequence.length` and
`length_bp = 3 * (protein length + 1)`. -/
theorem orf_record_invariant (registry : Registry) (table : Nat)
    (seq : List Char) (minLen : Nat) (l : List ORFRecord)
    (hok : find_orfs_biopython registry seq minLen table = .ok l) :
    ∀ r ∈ l, 1 ≤ r.start ∧ r.start ≤ r.end_ ∧ r.end_ ≤ seq.length ∧
      r.length_bp = 3 * (r.protein_sequence.length + 1) := by
  intro r hr
  unfold find_orfs_biopython at hok
  by_cases hshort : seq.length < minLen * 3 + 3
  · simp only [if_pos hshort, Except.ok.injEq] at hok
    subst hok; simp at hr
  · rw [if_neg hshort] at hok
    by_cases hreg : ((registry table).isNone && (registry 1).isNone) = true
    · rw [if_pos hreg] at hok
      simp only [Except.ok.injEq] at hok
      subst hok; simp at hr
    · rw [if_neg hreg] at hok
      cases hmapM : mapME
          (fun t => frameOrfs registry table t.1 seq.length t.2.1 t.2.2 minLen)
          ([((1 : Int), seq), (-1, reverseComplement seq)].flatMap
            (fun sp => [0, 1, 2].map (fun frame => (sp.1, sp.2, frame)))) with
      | error e => rw [hmapM] at hok; cases hok
      | ok results =>
        rw [hmapM] at hok
        simp only [Except.ok.injEq] at hok
        subst hok
        rw [mem_sortByKey] at hr
        rw [List.mem_flatten] at hr
        obtain ⟨fr, hfr, hrfr⟩ := hr
        obtain ⟨t, ht, hft⟩ := mapME_ok_mem hmapM fr hfr
        -- the six strand/frame tuples
        have hnuc : t.2.1.length = seq.length ∧ t.2.2 < 3 := by
          simp only [List.mem_flatMap, List.mem_map, List.mem_cons,
            List.not_mem_nil, or_false] at ht
          obtain ⟨sp, hsp, frame, hframe, hteq⟩ := ht
          subst hteq
          constructor
          · rcases hsp with rfl | rfl
            · rfl
            · exact reverseComplement_length seq
          · rcases hframe with rfl | rfl | rfl <;> simp
        -- dissect the successful frame scan
        unfold frameOrfs at hft
        by_cases hfl : (t.2.1.drop t.2.2).length < 3
        · simp only [if_pos hfl, Except.ok.injEq] at hft
          subst hft; simp at hrfr
        · rw [if_neg hfl] at hft
          cases hprot : mapME (codonAA registry table) (frameCodons (t.2.1.drop t.2.2)) with
          | error e => rw [hprot] at hft; cases hft
          | ok prot =>
            rw [hprot] at hft
            simp only [Except.ok.injEq] at hft
            subst hft
            have hplen : prot.length = (seq.length - t.2.2) / 3 := by
              rw [mapME_ok_length hprot, frameCodons_length, List.length_drop, hnuc.1]
            refine orfsFromProtein_invariant t.1 seq.length t.2.2 minLen prot ?_ r hrfr
            have hdiv : 3 * ((seq.length - t.2.2) / 3) ≤ seq.length - t.2.2 := by
              have := Nat.div_mul_le_self (seq.length - t.2.2) 3
              omega
            have h3 : 3 ≤ seq.length := by omega
            have h2 : t.2.2 < 3 := hnuc.2
            omega

/-- Witness for C2 at the repository's own test input. -/
theorem orf_record_invariant_witness :
    1 ≤ (13 : Nat) ∧ (13 : Nat) ≤ 42 ∧ (42 : Nat) ≤ testDnaFwd.length ∧
      (30 : Nat) = 3 * ("MKKKKKGPF".data.length + 1) := by
  have h := orf_record_invariant stdRegistry 1 testDnaFwd 9
    [{ start := 13, end_ := 42, strand := '+', length_bp := 30,
       protein_sequence := "MKKKKKGPF".data }]
    (by decide)
    { start := 13, end_ := 42, strand := '+', length_bp := 30,
      protein_sequence := "MKKKKKGPF".data }
    (by decide)
  exact h

/-! ### Claim C1 — the round-trip test sequence -/

/-- C1 as stated is false: on the 47-nt test sequence with
`min_protein_length = 9` the single ORF's protein is not nine lysines.
(Its actual protein is `MKKKKKGPF`, as the repository's own test comment
records.) -/
theorem orf_roundtrip_counterexample :
    find_orfs_biopython stdRegistry testDnaFwd 9 1 ≠
      .ok [{ start := 13, end_ := 42, strand := '+', length_bp := 30,
             protein_sequence := "KKKKKKKKK".data }] := by
  decide

/-- C1 amended: the 47-nt test sequence with `min_protein_length = 9`
and the standard table yields exactly one ORF with `start = 13`,
`end = 42`, strand `+`, `length_bp = 30`, and protein `MKKKKKGPF`
(the start methionine, five lysines, then `GPF`; stop excluded). -/
theorem orf_roundtrip :
    find_orfs_biopython stdRegistry testDnaFwd 9 1 =
      .ok [{ start := 13, end_ := 42, strand := '+', length_bp := 30,
             protein_sequence := "MKKKKKGPF".data }] := by
  decide

/-! ### Claim C9 — short sequences short-circuit to an empty result -/

/-- C9: a sequence shorter than `min_protein_length * 3 + 3` produces the
empty ORF list (the guard returns before any frame is scanned). -/
theorem orf_short_sequence_empty (registry : Registry) (table : Nat)
    (seq : List Char) (minLen : Nat) (h : seq.length < minLen * 3 + 3) :
    find_orfs_biopython registry seq minLen table = .ok [] := by
  unfold find_orfs_biopython
  rw [if_pos h]

/-- Witness for C9: a 9-nt sequence against `min_protein_length = 25`. -/
theorem orf_short_sequence_empty_witness :
    "ATGAAATAG".data.length < 25 * 3 + 3 ∧
      find_orfs_biopython stdRegistry "ATGAAATAG".data 25 1 = .ok [] :=
  ⟨by decide, orf_short_sequence_empty stdRegistry 1 "ATGAAATAG".data 25 (by decide)⟩

/-! ### Claim C3 — unknown codon table id

The source looks the table up in `CodonTable.ambiguous_dna_by_id` and on
a `KeyError` falls back to table 1 with a warning — but the fallback
`codon_table` variable is never used: the per-codon translation still
calls `codon.translate(table=table)` with the original id, which raises
an uncaught `ValueError` inside Biopython.  So for an unknown table id
on any sequence long enough to be scanned, the function raises instead
of returning the table-1 result. -/

/-- C3 fails on the code: with an unknown table id (absent from the
registry, table 1 present) and any sequence that passes the length
guard, `find_orfs_biopython` propagates the `ValueError` raised by the
(still original-id) translation call instead of falling back. -/
theorem orf_unknown_table_raises (registry : Registry) (table : Nat)
    (seq : List Char) (minLen : Nat)
    (hunknown : registry table = none) (hstd : (registry 1).isSome)
    (hlong : minLen * 3 + 3 ≤ seq.length) :
    find_orfs_biopython registry seq minLen table = .error .valueError := by
  obtain ⟨a, b, c, rest, rfl⟩ : ∃ a b c rest, seq = a :: b :: c :: rest := by
    cases seq with
    | nil => simp at hlong
    | cons a s1 =>
      cases s1 with
      | nil => simp at hlong
      | cons b s2 =>
        cases s2 with
        | nil => simp at hlong
        | cons c rest => exact ⟨a, b, c, rest, rfl⟩
  obtain ⟨code1, hcode1⟩ := Option.isSome_iff_exists.mp hstd
  have hfo : frameOrfs registry table 1 (a :: b :: c :: rest).length
      (a :: b :: c :: rest) 0 minLen = .error .valueError := by
    unfold frameOrfs
    rw [if_neg (by simp only [List.drop_zero, List.length_cons]; omega)]
    simp only [List.drop_zero, frameCodons, mapME, codonAA, hunknown, bind, Except.bind]
  unfold find_orfs_biopython
  rw [if_neg (by simp only [List.length_cons] at hlong ⊢; omega)]
  rw [if_neg (by simp [hunknown, hcode1])]
  simp only [List.flatMap_cons, List.map_cons, List.map_nil, List.flatMap_nil,
    List.append_nil, List.cons_append, List.nil_append]
  simp only [mapME, bind, Except.bind]
  rw [hfo]

/-- Witness for C3's divergence: at the repository's own test sequence,
table id 999 (unknown) makes the finder raise, while table 1 returns the
single test ORF. -/
theorem orf_unknown_table_raises_witness :
    stdRegistry 999 = none ∧ (stdRegistry 1).isSome ∧
      9 * 3 + 3 ≤ testDnaFwd.length ∧
      find_orfs_biopython stdRegistry testDnaFwd 9 999 = .error .valueError :=
  ⟨rfl, rfl, by decide,
    orf_unknown_table_raises stdRegistry 999 testDnaFwd 9 rfl rfl (by decide)⟩

/-! ## `src/motif_detector.py` — `find_motifs`

The sequence and its reverse complement are uppercased
(`str(...).upper()`, modelled on the ASCII range) and each compiled
pattern is scanned over both with `finditer`.  A regex engine is not
re-implemented: a *matcher* is any function returning the 0-based
half-open `[s, e)` spans of its non-overlapping matches (or raising);
`match.group(0)` is by `re`'s contract the slice `text[s:e]`, which is
how `matched_sequence` is built.  A pattern whose compilation failed
(`re.error`) is `none` and is skipped with a warning.  The whole body
sits in a `try`/`except Exception` that returns `[]`. -/

/-- One motif hit dictionary
(`motif_id`/`start`/`end`/`strand`/`matched_sequence`). -/
structure MotifHit : Type where
  motif_id : String
  start : Nat
  end_ : Nat
  strand : Char
  matched_sequence : List Char
deriving DecidableEq, Repr

/-- Python `str.upper()` on the ASCII range (the sequence alphabet);
other characters are untouched. -/
def upperChar (c : Char) : Char :=
  if 97 ≤ c.toNat ∧ c.toNat ≤ 122 then Char.ofNat (c.toNat - 32) else c

/-- A compiled pattern's `finditer`: the 0-based half-open spans of its
non-overlapping matches on a text, or an exception. -/
abbrev Matcher : Type := List Char → Except String (List (Nat × Nat))

/-- The body of the per-pattern loop: scan the forward strand, then the
reverse complement strand, converting each span to a 1-based hit record
(`start = s + 1`/`end = e` forward; `start = len - e + 1`/`end = len - s`
reverse); `match.group(0)` is the slice of the scanned text. -/
def patternHits (motif_id : String) (finditer : Matcher)
    (seq_fwd seq_rev : List Char) (seq_len : Nat) :
    Except String (List MotifHit) :=
  match finditer seq_fwd with
  | .error e => .error e
  | .ok fwd_matches =>
    match finditer seq_rev with
    | .error e => .error e
    | .ok rev_matches =>
      .ok (fwd_matches.map (fun m =>
            { motif_id := motif_id, start := m.1 + 1, end_ := m.2, strand := '+',
              matched_sequence := (seq_fwd.drop m.1).take (m.2 - m.1) })
        ++ rev_matches.map (fun m =>
            { motif_id := motif_id, start := seq_len - m.2 + 1,
              end_ := seq_len - m.1, strand := '-',
              matched_sequence := (seq_rev.drop m.1).take (m.2 - m.1) }))

/-- Everything inside the `try` of `find_motifs`: uppercase both
strands, return `[]` for an empty sequence (with a warning), skip
invalid patterns, collect both strands' hits per pattern, sort by
`start`.  An exception anywhere aborts the whole body. -/
def find_motifs_body (motif_patterns : List (String × Option Matcher))
    (seq : List Char) : Except String (List MotifHit) :=
  let seq_fwd := seq.map upperChar
  let seq_rev := (reverseComplement seq).map upperChar
  let seq_len := seq_fwd.length
  if seq_len = 0 then .ok []
  else
    match mapME (fun p =>
      match p.2 with
      | none => .ok []
      | some finditer => patternHits p.1 finditer seq_fwd seq_rev seq_len)
      motif_patterns with
    | .error e => .error e
    | .ok results => .ok (sortByKey MotifHit.start results.flatten)

/-- Model of `find_motifs(sequence_record, motif_patterns)`: the body wrapped in
the catch-all `except Exception: ... return []`. -/
def find_motifs (motif_patterns : List (String × Option Matcher))
    (seq : List Char) : List MotifHit :=
  match find_motifs_body motif_patterns seq with
  | .ok results => results
  | .error _ => []

/-! ### Supporting lemmas for the motif scanner -/

set_option maxHeartbeats 1600000 in
/-- Complementing commutes with ASCII uppercasing (the IUPAC table maps
lower case to lower case and upper case to upper case). -/
theorem complement_upper_comm (c : Char) :
    complementBase (upperChar c) = upperChar (complementBase c) := by
  by_cases hlow : 97 ≤ c.toNat ∧ c.toNat ≤ 122
  · have hc : c = Char.ofNat c.toNat := (Char.ofNat_toNat c).symm
    obtain ⟨h1, h2⟩ := hlow
    set n := c.toNat with hn
    interval_cases n <;> (rw [hc]; decide)
  · unfold upperChar
    rw [if_neg hlow]
    unfold complementBase
    split <;> first
      | decide
      | (exfalso; revert hlow; decide)
      | rw [if_neg hlow]

/-- Uppercasing a reverse complement equals reverse-complementing the
uppercased sequence. -/
theorem map_upper_reverseComplement (s : List Char) :
    (reverseComplement s).map upperChar = reverseComplement (s.map upperChar) := by
  unfold reverseComplement
  rw [List.map_reverse, List.map_map, List.map_map]
  rw [show upperChar ∘ complementBase = complementBase ∘ upperChar from
    funext fun c => (complement_upper_comm c).symm]

/-- A slice of a reversed list is the reverse of the mirrored slice. -/
theorem reverse_slice {α : Type} (l : List α) (s e : Nat) (hse : s ≤ e)
    (hel : e ≤ l.length) :
    (l.reverse.drop s).take (e - s) =
      ((l.drop (l.length - e)).take (e - s)).reverse := by
  rw [List.drop_reverse, List.take_reverse]
  congr 1
  rw [show (l.take (l.length - s)).length - (e - s) = l.length - e from by
    rw [List.length_take]; omega]
  rw [List.drop_take]
  congr 1
  omega

/-! ### Claim C4 — reverse-strand motif coordinates round-trip -/

/-- C4: for every pattern map (whose matchers return in-bounds spans, as
`re.finditer` does) and every sequence, every reverse-strand hit's
forward-strand slice `[start-1, end)`, reverse-complemented, reproduces
`matched_sequence` exactly. -/
theorem motif_reverse_hit_roundtrip
    (motif_patterns : List (String × Option Matcher)) (seq : List Char)
    (hit : MotifHit)
    (hvalid : ∀ p ∈ motif_patterns, ∀ m, p.2 = some m →
      ∀ text ms, m text = .ok ms → ∀ se ∈ ms, se.1 ≤ se.2 ∧ se.2 ≤ text.length)
    (hhit : hit ∈ find_motifs motif_patterns seq) (hstrand : hit.strand = '-') :
    reverseComplement (((seq.map upperChar).drop (hit.start - 1)).take
        (hit.end_ - (hit.start - 1))) = hit.matched_sequence := by
  unfold find_motifs at hhit
  cases hbody : find_motifs_body motif_patterns seq with
  | error e => rw [hbody] at hhit; simp at hhit
  | ok results =>
    rw [hbody] at hhit
    unfold find_motifs_body at hbody
    by_cases hz : (seq.map upperChar).length = 0
    · rw [if_pos hz] at hbody
      simp only [Except.ok.injEq] at hbody
      subst hbody; simp at hhit
    · rw [if_neg hz] at hbody
      cases hmapME : mapME (fun p =>
          match p.2 with
          | none => .ok []
          | some finditer => patternHits p.1 finditer (seq.map upperChar)
              ((reverseComplement seq).map upperChar) (seq.map upperChar).length)
          motif_patterns with
      | error e => rw [hmapME] at hbody; cases hbody
      | ok rss =>
        rw [hmapME] at hbody
        simp only [Except.ok.injEq] at hbody
        subst hbody
        rw [mem_sortByKey, List.mem_flatten] at hhit
        obtain ⟨chunk, hchunk, hhitchunk⟩ := hhit
        obtain ⟨p, hp, hpok⟩ := mapME_ok_mem hmapME chunk hchunk
        split at hpok
        · -- invalid pattern: skipped, contributes nothing
          simp only [Except.ok.injEq] at hpok
          subst hpok; simp at hhitchunk
        · rename_i finditer hp2
          unfold patternHits at hpok
          cases hfwd : finditer (seq.map upperChar) with
          | error e => rw [hfwd] at hpok; cases hpok
          | ok fwd_matches =>
            rw [hfwd] at hpok
            cases hrev : finditer ((reverseComplement seq).map upperChar) with
            | error e => rw [hrev] at hpok; cases hpok
            | ok rev_matches =>
              rw [hrev] at hpok
              simp only [Except.ok.injEq] at hpok
              subst hpok
              rw [List.mem_append] at hhitchunk
              rcases hhitchunk with hm | hm
              · -- forward-strand hit: contradicts strand '-'
                rw [List.mem_map] at hm
                obtain ⟨m, _, hm⟩ := hm
                subst hm
                simp at hstrand
              · rw [List.mem_map] at hm
                obtain ⟨m, hmrev, hm⟩ := hm
                subst hm
                have hb := hvalid p hp finditer hp2
                  ((reverseComplement seq).map upperChar) rev_matches hrev m hmrev
                have hL : ((reverseComplement seq).map upperChar).length = seq.length := by
                  simp [reverseComplement_length]
                have hLU : (seq.map upperChar).length = seq.length := by simp
                rw [hL] at hb
                obtain ⟨hse, hel⟩ := hb
                simp only [hLU]
                -- normalise the claimed indices
                rw [show seq.length - m.2 + 1 - 1 = seq.length - m.2 from by omega]
                rw [show seq.length - m.1 - (seq.length - m.2) = m.2 - m.1 from by omega]
                -- both sides as slices of the complemented uppercased sequence
                rw [map_upper_reverseComplement]
                unfold reverseComplement
                rw [List.map_take, List.map_drop]
                rw [reverse_slice ((seq.map upperChar).map complementBase) m.1 m.2 hse
                  (by simpa using hel)]
                simp [List.length_map]

/-- A matcher used by the witnesses: it reports the single span `[0, 2)`
on any text of length at least two. -/
def firstTwoMatcher : Matcher :=
  fun text => .ok (if 2 ≤ text.length then [(0, 2)] else [])

/-- Witness for C4: the palindrome `AATT` and a pattern matching its
first two bases on both strands gives the reverse hit `start 3`,
`end 4`, and the slice round-trip holds there. -/
theorem motif_reverse_hit_roundtrip_witness :
    reverseComplement ((("AATT".data.map upperChar).drop (3 - 1)).take (4 - (3 - 1)))
      = "AA".data := by
  have h := motif_reverse_hit_roundtrip [("M0", some firstTwoMatcher)] "AATT".data
    { motif_id := "M0", start := 3, end_ := 4, strand := '-',
      matched_sequence := "AA".data }
    (by
      intro p hp m hm text ms hok se hse
      rcases List.mem_cons.mp hp with hp | hp
      · subst hp
        simp only [Option.some.injEq] at hm
        subst hm
        unfold firstTwoMatcher at hok
        simp only [Except.ok.injEq] at hok
        subst hok
        by_cases hlen : 2 ≤ text.length
        · rw [if_pos hlen] at hse
          rcases List.mem_cons.mp hse with hse | hse
          · subst hse; exact ⟨by omega, by omega⟩
          · simp at hse
        · rw [if_neg hlen] at hse; simp at hse
      · simp at hp)
    (by decide) rfl
  exact h

/-! ### Claim C10 — the catch-all handler of `find_motifs` -/

/-- C10: an exception escaping the body of `find_motifs` is caught and
yields `[]` — the same value a genuinely motif-free run (here: the run
with no patterns at all) returns, so the two are indistinguishable. -/
theorem motif_error_yields_empty
    (motif_patterns : List (String × Option Matcher)) (seq : List Char)
    (e : String) (herr : find_motifs_body motif_patterns seq = .error e) :
    find_motifs motif_patterns seq = [] ∧ find_motifs [] seq = [] := by
  constructor
  · unfold find_motifs
    rw [herr]
  · unfold find_motifs find_motifs_body
    by_cases hz : (seq.map upperChar).length = 0
    · rw [if_pos hz]
    · rw [if_neg hz]
      simp [mapME, sortByKey]

/-- A matcher used by the witnesses: it raises on every text, standing
for an arbitrary internal exception. -/
def raisingMatcher : Matcher := fun _ => .error "boom"

/-- Witness for C10: a pattern whose matcher raises makes the body
error, and the public function returns `[]`, equal to the no-patterns
result. -/
theorem motif_error_yields_empty_witness :
    find_motifs [("BOOM", some raisingMatcher)] "ACGT".data = [] ∧
      find_motifs [] "ACGT".data = [] :=
  motif_error_yields_empty [("BOOM", some raisingMatcher)] "ACGT".data "boom" rfl

/-! ## `src/domain_finder.py` — `find_domains_interpro`

The remote InterProScan service is an explicit environment: `submit`
maps a protein to a job id (`none` is a submission failure), `status`
gives the status token a probe at a given elapsed time returns
(transport errors already appear as `"ERROR"`/`"NOT_FOUND"`, exactly as
`check_job_status` converts them), `fetch` gives the retrieved JSON
document (`none` is a retrieval failure).  Elapsed time is a discrete
clock: each submission's `time.sleep(1)` adds one second, each blocking
status probe takes one second, and each `time.sleep(poll_interval)`
adds `poll_interval`.  The result documents and the parsed hits are
type parameters (`parse` stands for `parse_interproscan_json`).  The
embedding also returns the trace of outbound network calls, used to
state that some runs make none. -/

/-- One outbound network request of the domain finder. -/
inductive NetEvent : Type
  | submitCall (orf_id : String)
  | statusCall (job_id : String)
  | fetchCall (job_id : String)
deriving DecidableEq, Repr

/-- The remote service and configuration seen by `find_domains_interpro`. -/
structure IprEnv (R : Type) : Type where
  emailSet : Bool
  submit : String → String → Option String
  status : String → Nat → String
  fetch : String → Option R

/-- Python `dict` insertion: an existing key keeps its position and gets
the new value, a new key is appended at the end. -/
def dictInsert (k v : String) : List (String × String) → List (String × String)
  | [] => [(k, v)]
  | (k', v') :: rest =>
    if k' = k then (k, v) :: rest else (k', v') :: dictInsert k v rest

/-- The submission loop (`--- 1. Submit All Jobs ---`): skip empty or
short proteins (no sleep), otherwise submit and sleep one second;
successful submissions are recorded as `orf_id -> job_id` in submission
order.  Returns the `submitted_jobs` dict, the elapsed clock, and the
trace of submission calls. -/
def submitLoop {R : Type} (env : IprEnv R) :
    List (String × String) → List (String × String) → Nat → List NetEvent →
    List (String × String) × Nat × List NetEvent
  | [], subs, t, evs => (subs, t, evs)
  | (orf_id, protein_seq) :: rest, subs, t, evs =>
    if protein_seq = "" ∨ protein_seq.length < 5 then
      submitLoop env rest subs t evs
    else
      match env.submit orf_id protein_seq with
      | some job_id =>
        submitLoop env rest (dictInsert orf_id job_id subs) (t + 1)
          (evs ++ [.submitCall orf_id])
      | none =>
        submitLoop env rest subs (t + 1) (evs ++ [.submitCall orf_id])

/-- The `job_outcomes` map: `none` is a still-pending job, `some (.ok r)` a
retrieved result document, `some (.error msg)` the failure dictionary
`{"error": msg}`. -/
abbrev Outcomes (R : Type) : Type := String → Option (Except String R)

/-- The timeout branch: every still-pending job is marked
`{"error": "Timeout"}`. -/
def markTimeouts {R : Type} (pending : List String) (outcomes : Outcomes R) :
    Outcomes R :=
  fun j => if j ∈ pending then some (.error "Timeout") else outcomes j

/-- The polling loop (`--- 2. Poll for Status and Retrieve Results ---`):
while jobs are pending, check the deadline, pop the head, probe its
status, and either retrieve its result (`FINISHED`), requeue it at the
back (`RUNNING`/`QUEUED`), or mark it failed (anything else); sleep
`poll_interval` whenever jobs remain pending.  Returns the final
outcome map and the accumulated network trace. -/
def pollLoop {R : Type} (env : IprEnv R) (poll_interval deadline : Nat) :
    List String → Outcomes R → Nat → List NetEvent →
    Outcomes R × List NetEvent
  | [], outcomes, _, evs => (outcomes, evs)
  | job :: rest, outcomes, t, evs =>
    if deadline < t then
      (markTimeouts (job :: rest) outcomes, evs)
    else if env.status job t = "FINISHED" then
      pollLoop env poll_interval deadline rest
        (fun j => if j = job then
            some (match env.fetch job with
                  | some results => .ok results
                  | none => .error "ResultRetrievalFailed")
          else outcomes j)
        (if rest ≠ [] then t + 1 + poll_interval else t + 1)
        (evs ++ [.statusCall job, .fetchCall job])
    else if env.status job t = "RUNNING" ∨ env.status job t = "QUEUED" then
      pollLoop env poll_interval deadline (rest ++ [job]) outcomes
        (t + 1 + poll_interval) (evs ++ [.statusCall job])
    else
      pollLoop env poll_interval deadline rest
        (fun j => if j = job then
            some (.error (if env.status job t = "ERROR" ∨ env.status job t = "FAILURE"
                ∨ env.status job t = "NOT_FOUND" then env.status job t
              else "UnexpectedStatus: " ++ env.status job t))
          else outcomes j)
        (if rest ≠ [] then t + 1 + poll_interval else t + 1)
        (evs ++ [.statusCall job])
termination_by _ _ t _ => deadline + 1 - t
decreasing_by all_goals first | omega | (split <;> omega)

/-- The parse loop (`--- 3. Parse Results ... ---`): walk
`submitted_jobs.items()` in submission order and extend the result with
the parsed hits of each job whose outcome is a result document; failed
or timed-out jobs are skipped. -/
def parse_loop {R D : Type} (parse : R → String → List D)
    (submitted : List (String × String)) (outcomes : Outcomes R) : List D :=
  submitted.foldl (fun acc oj =>
    match outcomes oj.2 with
    | some (.ok results) => acc ++ parse results oj.1
    | _ => acc) []

/-- Model of `find_domains_interpro(protein_sequences, poll_interval,
max_wait_minutes)`: input validation, submission, polling against the
`max_wait_minutes * 60` deadline, then parsing.  The first component is
the Python return value, the second the outbound network trace. -/
def find_domains_interpro {R D : Type} (env : IprEnv R)
    (parse : R → String → List D) (protein_sequences : List (String × String))
    (poll_interval max_wait_minutes : Nat) : List D × List NetEvent :=
  if protein_sequences = [] then ([], [])
  else if env.emailSet = false then ([], [])
  else
    let sres := submitLoop env protein_sequences [] 0 []
    if sres.1 = [] then ([], sres.2.2)
    else
      let pres := pollLoop env poll_interval (max_wait_minutes * 60)
        (sres.1.map Prod.snd) (fun _ => none) sres.2.1 sres.2.2
      (parse_loop parse sres.1 pres.1, pres.2)

/-- The `submitted_jobs` dict a run of `find_domains_interpro` builds. -/
def submittedJobs {R : Type} (env : IprEnv R)
    (protein_sequences : List (String × String)) : List (String × String) :=
  (submitLoop env protein_sequences [] 0 []).1

/-- The final `job_outcomes` map a run of `find_domains_interpro`
reaches after polling. -/
def finalOutcomes {R : Type} (env : IprEnv R)
    (protein_sequences : List (String × String))
    (poll_interval max_wait_minutes : Nat) : Outcomes R :=
  let sres := submitLoop env protein_sequences [] 0 []
  (pollLoop env poll_interval (max_wait_minutes * 60)
    (sres.1.map Prod.snd) (fun _ => none) sres.2.1 sres.2.2).1

/-! ### Supporting lemmas for the domain finder -/

/-- The hits a given job contributes to the aggregate: the parsed hits
of its result document when it has one, nothing otherwise. -/
def parsedChunk {R D : Type} (parse : R → String → List D)
    (outcomes : Outcomes R) (oj : String × String) : Option (List D) :=
  match outcomes oj.2 with
  | some (.ok r) => some (parse r oj.1)
  | _ => none

/-- The parse loop is the in-order concatenation of the parsed hits of
the jobs whose outcome is a result document. -/
theorem parse_loop_eq {R D : Type} (parse : R → String → List D)
    (outcomes : Outcomes R) :
    ∀ (submitted : List (String × String)) (acc : List D),
    submitted.foldl (fun acc oj =>
      match outcomes oj.2 with
      | some (.ok results) => acc ++ parse results oj.1
      | _ => acc) acc =
    acc ++ (submitted.filterMap (parsedChunk parse outcomes)).flatten := by
  intro submitted
  induction submitted with
  | nil => intro acc; simp
  | cons oj rest ih =>
    intro acc
    simp only [List.foldl_cons, List.filterMap_cons]
    cases h : outcomes oj.2 with
    | none =>
      simp only [parsedChunk, h]
      rw [ih]
    | some exc =>
      cases exc with
      | ok r =>
        simp only [parsedChunk, h, List.flatten_cons]
        rw [ih]
        rw [List.append_assoc]
      | error e =>
        simp only [parsedChunk, h]
        rw [ih]

/-- If no protein is submittable (too short) or no submission succeeds,
the `submitted_jobs` dict stays as it was. -/
theorem submitLoop_no_success {R : Type} (env : IprEnv R) :
    ∀ (ps subs : List (String × String)) (t : Nat) (evs : List NetEvent),
    (∀ p ∈ ps, p.2.length < 5 ∨ env.submit p.1 p.2 = none) →
    (submitLoop env ps subs t evs).1 = subs := by
  intro ps
  induction ps with
  | nil => intro subs t evs _; rfl
  | cons p rest ih =>
    intro subs t evs h
    obtain ⟨orf, prot⟩ := p
    unfold submitLoop
    by_cases hshort : prot = "" ∨ prot.length < 5
    · rw [if_pos hshort]
      exact ih subs t evs (fun q hq => h q (List.mem_cons_of_mem _ hq))
    · rw [if_neg hshort]
      have hnone : env.submit orf prot = none := by
        rcases h (orf, prot) (List.mem_cons_self _ _) with hlen | hnone
        · exact absurd (Or.inr hlen) hshort
        · exact hnone
      rw [hnone]
      exact ih subs (t + 1) (evs ++ [.submitCall orf])
        (fun q hq => h q (List.mem_cons_of_mem _ hq))

/-- The hit list returned by a configured run is the in-order
concatenation of the parsed hits of the jobs whose final outcome is a
retrieved result document. -/
theorem find_domains_hits_eq {R D : Type} (env : IprEnv R)
    (parse : R → String → List D) (ps : List (String × String)) (pi mw : Nat)
    (hemail : env.emailSet = true) :
    (find_domains_interpro env parse ps pi mw).1 =
      ((submittedJobs env ps).filterMap
        (parsedChunk parse (finalOutcomes env ps pi mw))).flatten := by
  simp only [find_domains_interpro, submittedJobs, finalOutcomes]
  by_cases hps : ps = []
  · subst hps
    simp [submitLoop]
  · rw [if_neg hps, if_neg (by simp [hemail])]
    by_cases hsub : (submitLoop env ps [] 0 []).1 = []
    · rw [if_pos hsub, hsub]
      simp
    · rw [if_neg hsub]
      unfold parse_loop
      rw [parse_loop_eq]
      simp

/-- A job whose status never leaves `RUNNING`/`QUEUED` keeps a pending
outcome until the deadline branch marks it `Timeout`. -/
theorem pollLoop_timeout_of_always_pending {R : Type} (env : IprEnv R)
    (pi deadline : Nat) (jid : String)
    (hrun : ∀ u, env.status jid u = "RUNNING" ∨ env.status jid u = "QUEUED") :
    ∀ (pending : List String) (outcomes : Outcomes R) (t : Nat) (evs : List NetEvent),
    jid ∈ pending → outcomes jid = none →
    (pollLoop env pi deadline pending outcomes t evs).1 jid =
      some (.error "Timeout") := by
  intro pending outcomes t evs
  induction pending, outcomes, t, evs using pollLoop.induct env pi deadline with
  | case1 outcomes t evs =>
    intro hmem _
    simp at hmem
  | case2 job rest outcomes t evs hdl =>
    intro hmem _
    unfold pollLoop
    rw [if_pos hdl]
    simp only [markTimeouts]
    rw [if_pos hmem]
  | case3 job rest outcomes t evs hdl hfin ih =>
    intro hmem hout
    have hne : jid ≠ job := by
      intro heq
      subst heq
      rcases hrun t with h | h <;> rw [h] at hfin <;> exact absurd hfin (by decide)
    unfold pollLoop
    rw [if_neg hdl, if_pos hfin]
    apply ih
    · rcases List.mem_cons.mp hmem with h | h
      · exact absurd h hne
      · exact h
    · simp only [dif_neg hne]
      exact hout
  | case4 job rest outcomes t evs hdl hfin hpend ih =>
    intro hmem hout
    unfold pollLoop
    rw [if_neg hdl, if_neg hfin, if_pos hpend]
    apply ih
    · rcases List.mem_cons.mp hmem with h | h
      · subst h
        exact List.mem_append_right _ (List.mem_singleton.mpr rfl)
      · exact List.mem_append_left _ h
    · exact hout
  | case5 job rest outcomes t evs hdl hfin hpend ih =>
    intro hmem hout
    have hne : jid ≠ job := by
      intro heq
      subst heq
      rcases hrun t with h | h
      · exact hpend (Or.inl h)
      · exact hpend (Or.inr h)
    unfold pollLoop
    rw [if_neg hdl, if_neg hfin, if_neg hpend]
    apply ih
    · rcases List.mem_cons.mp hmem with h | h
      · exact absurd h hne
      · exact h
    · simp only [dif_neg hne]
      exact hout

/-! ### Claim C5 — aggregate result in orf-id submission order -/

/-- C5: for every batch and every remote-service behaviour (as long as
the service is configured), the returned hit list is exactly the
concatenation, in the orf-id submission order of `submitted_jobs`, of
the parsed hits of the jobs that reached a retrieved result document;
jobs that never reach that state contribute nothing, and no error is
raised for the batch. -/
theorem domains_hits_ordered_concat {R D : Type} (env : IprEnv R)
    (parse : R → String → List D) (ps : List (String × String)) (pi mw : Nat)
    (hemail : env.emailSet = true) :
    (find_domains_interpro env parse ps pi mw).1 =
      ((submittedJobs env ps).filterMap
        (parsedChunk parse (finalOutcomes env ps pi mw))).flatten :=
  find_domains_hits_eq env parse ps pi mw hemail

/-- The remote-service environment used by the witnesses: submissions
succeed with job id `job_<orf>`, job `job_o1` is immediately finished
with result `7`, everything else stays running forever. -/
def demoEnv : IprEnv Nat where
  emailSet := true
  submit := fun orf _ => some ("job_" ++ orf)
  status := fun j _ => if j = "job_o1" then "FINISHED" else "RUNNING"
  fetch := fun _ => some 7

/-- The parser used by the witnesses: one hit naming the orf. -/
def demoParse : Nat → String → List String := fun _ orf => [orf]

/-- The protein batch used by the witnesses. -/
def demoProteins : List (String × String) := [("o1", "MAGWS"), ("o2", "MKKKK")]

/-- Witness for C5 at the two-protein demonstration batch. -/
theorem domains_hits_ordered_concat_witness :
    (find_domains_interpro demoEnv demoParse demoProteins 50 1).1 =
      ((submittedJobs demoEnv demoProteins).filterMap
        (parsedChunk demoParse (finalOutcomes demoEnv demoProteins 50 1))).flatten :=
  domains_hits_ordered_concat demoEnv demoParse demoProteins 50 1 rfl

/-! ### Claim C6 — a perpetually pending job times out and blocks nothing -/

/-- C6: a submitted job whose status never leaves `RUNNING`/`QUEUED`
ends with the `Timeout` outcome (so it is excluded from parsing and
contributes no hits), and every job whose final outcome is a retrieved
result document still has all its parsed hits in the returned list. -/
theorem domains_pending_job_times_out {R D : Type} (env : IprEnv R)
    (parse : R → String → List D) (ps : List (String × String)) (pi mw : Nat)
    (hemail : env.emailSet = true) (orf_j jid : String)
    (hjob : (orf_j, jid) ∈ submittedJobs env ps)
    (hrun : ∀ u, env.status jid u = "RUNNING" ∨ env.status jid u = "QUEUED") :
    finalOutcomes env ps pi mw jid = some (.error "Timeout") ∧
      (∀ orf' jid', (orf', jid') ∈ submittedJobs env ps →
        ∀ r, finalOutcomes env ps pi mw jid' = some (.ok r) →
        ∀ d ∈ parse r orf', d ∈ (find_domains_interpro env parse ps pi mw).1) := by
  constructor
  · unfold finalOutcomes
    apply pollLoop_timeout_of_always_pending env pi (mw * 60) jid hrun
    · exact List.mem_map.mpr ⟨(orf_j, jid), hjob, rfl⟩
    · rfl
  · intro orf' jid' hmem r hok d hd
    rw [find_domains_hits_eq env parse ps pi mw hemail]
    rw [List.mem_flatten]
    refine ⟨parse r orf', ?_, hd⟩
    rw [List.mem_filterMap]
    exact ⟨(orf', jid'), hmem, by simp only [parsedChunk, hok]⟩

/-- Witness for C6: in the demonstration batch, `job_o2` runs forever
and times out while `job_o1`'s hit is still returned. -/
theorem domains_pending_job_times_out_witness :
    finalOutcomes demoEnv demoProteins 50 1 "job_o2" = some (.error "Timeout") ∧
      (∀ orf' jid', (orf', jid') ∈ submittedJobs demoEnv demoProteins →
        ∀ r, finalOutcomes demoEnv demoProteins 50 1 jid' = some (.ok r) →
        ∀ d ∈ demoParse r orf',
          d ∈ (find_domains_interpro demoEnv demoParse demoProteins 50 1).1) :=
  domains_pending_job_times_out demoEnv demoParse demoProteins 50 1 rfl
    "o2" "job_o2" (by decide) (fun u => Or.inl rfl)

/-! ### Claim C7 — nothing to submit means an empty result, quietly -/

/-- C7: an empty batch returns an empty hit list with no network call
at all; a batch with no submittable protein (all shorter than five
residues), or one in which every submission fails, returns an empty hit
list without raising. -/
theorem domains_nothing_submittable_empty {R D : Type} (env : IprEnv R)
    (parse : R → String → List D) (pi mw : Nat) :
    find_domains_interpro env parse ([] : List (String × String)) pi mw = ([], []) ∧
      (∀ ps, (∀ p ∈ ps, p.2.length < 5) →
        (find_domains_interpro env parse ps pi mw).1 = []) ∧
      (∀ ps, (∀ p ∈ ps, env.submit p.1 p.2 = none) →
        (find_domains_interpro env parse ps pi mw).1 = []) := by
  refine ⟨rfl, ?_, ?_⟩
  · intro ps h
    by_cases hps : ps = []
    · subst hps; rfl
    · simp only [find_domains_interpro]
      rw [if_neg hps]
      by_cases he : env.emailSet = false
      · rw [if_pos he]
      · rw [if_neg he]
        rw [if_pos (submitLoop_no_success env ps [] 0 []
          (fun p hp => Or.inl (h p hp)))]
  · intro ps h
    by_cases hps : ps = []
    · subst hps; rfl
    · simp only [find_domains_interpro]
      rw [if_neg hps]
      by_cases he : env.emailSet = false
      · rw [if_pos he]
      · rw [if_neg he]
        rw [if_pos (submitLoop_no_success env ps [] 0 []
          (fun p hp => Or.inr (h p hp)))]

/-- A remote service on which every submission fails. -/
def failingSubmitEnv : IprEnv Nat where
  emailSet := true
  submit := fun _ _ => none
  status := fun _ _ => "RUNNING"
  fetch := fun _ => none

/-- Witness for C7: the empty batch, an all-short batch, and a batch
whose submissions all fail. -/
theorem domains_nothing_submittable_empty_witness :
    find_domains_interpro demoEnv demoParse ([] : List (String × String)) 1 1 = ([], []) ∧
      (find_domains_interpro demoEnv demoParse [("o1", "MA")] 1 1).1 = [] ∧
      (find_domains_interpro failingSubmitEnv demoParse [("o1", "MAGWS")] 1 1).1 = [] :=
  ⟨(domains_nothing_submittable_empty demoEnv demoParse 1 1).1,
    (domains_nothing_submittable_empty demoEnv demoParse 1 1).2.1
      [("o1", "MA")] (by decide),
    (domains_nothing_submittable_empty failingSubmitEnv demoParse 1 1).2.2
      [("o1", "MAGWS")] (fun p _ => rfl)⟩

/-! ## `src/analysis_pipeline.py` — `run_full_analysis`

The FASTA parsing outcome is the pipeline's input: `.error` covers
`FileNotFoundError`, the parser's `ValueError`/`IOError`/`RuntimeError`,
and any unexpected exception (all of which return `{}` immediately);
`.ok` carries the parsed `(id, sequence)` records, an empty list being
the "no sequence record found" case.  The downstream analysis steps are
oracles in an environment (each may raise, matching the per-step
`try`/`except` blocks that substitute an error marker), and attempted
steps are recorded in a trace, used to state that a failed parse
attempts nothing downstream. -/

/-- A downstream computation attempted by the pipeline. -/
inductive Step : Type
  | orfStep | motifStep | domainStep | summaryStep
deriving DecidableEq, Repr

/-- The analysis components the pipeline calls, as oracles:
`find_orfs`/`find_motifs`/`find_domains` may raise (`.error`), which the
pipeline turns into an error marker for that section; `proteins_of`
stands for the `(orf_id, protein_sequence)` extraction over the ORF
dicts; `summarize` is the prompt build plus LLM call, `none` being any
of its failure modes. -/
structure PipelineEnv (O M D : Type) : Type where
  find_orfs : String → Except String (List O)
  proteins_of : List O → List (String × String)
  find_motifs : String → Except String (List M)
  find_domains : List (String × String) → Except String (List D)
  summarize : Option String

/-- The consolidated result dictionary: each section is either its hit
list or its `[{"error": ...}]` marker; `llm_summary` is always a string
after step 5. -/
structure AnalysisResult (O M D : Type) : Type where
  sequence_id : String
  sequence_length : Nat
  llm_summary : String
  orfs : Except String (List O)
  motifs : Except String (List M)
  domains : Except String (List D)

/-- Model of `run_full_analysis(fasta_filepath, output_json_path, skip_llm)`:
a fatal parse failure (or an empty record iterator) returns the empty
dictionary at once; otherwise the first record is analysed — ORFs, then
motifs, then domains (only when some protein is available), then the
summary (unless skipped).  The first component is `{}` (`none`) or the
result; the second is the trace of attempted downstream steps. -/
def run_full_analysis {O M D : Type} (env : PipelineEnv O M D)
    (parsed : Except String (List (String × String))) (skip_llm : Bool) :
    Option (AnalysisResult O M D) × List Step :=
  match parsed with
  | .error _ => (none, [])
  | .ok [] => (none, [])
  | .ok ((sid, sseq) :: _) =>
    let orfs := env.find_orfs sseq
    let motifs := env.find_motifs sseq
    let proteins_to_scan :=
      match orfs with
      | .ok l => env.proteins_of l
      | .error _ => []
    let domains_step : Except String (List D) × List Step :=
      if proteins_to_scan ≠ [] then (env.find_domains proteins_to_scan, [.domainStep])
      else (.ok [], [])
    let summary_step : String × List Step :=
      if skip_llm then ("Skipped by user request", [])
      else
        (match env.summarize with
         | some s => s
         | none => "Error: Failed to generate summary via LLM.", [.summaryStep])
    (some { sequence_id := sid, sequence_length := sseq.length,
            llm_summary := summary_step.1, orfs := orfs, motifs := motifs,
            domains := domains_step.1 },
      [Step.orfStep, Step.motifStep] ++ domains_step.2 ++ summary_step.2)

/-! ### Claim C8 — a failed sequence parse short-circuits everything -/

/-- C8: whenever FASTA parsing fails — file not found or a parser error
(`.error`), or no sequence record at all (`.ok []`) — the pipeline
returns the empty failure dictionary and attempts no downstream step:
no ORF finding, no motif detection, no domain search, no summary. -/
theorem pipeline_parse_failure_short_circuits {O M D : Type}
    (env : PipelineEnv O M D) (skip_llm : Bool) :
    (∀ e, run_full_analysis env (.error e) skip_llm = (none, [])) ∧
      run_full_analysis env (.ok []) skip_llm = (none, []) :=
  ⟨fun _ => rfl, rfl⟩

end GenoView
